import Mathlib

/-!
Shallow embedding of the HubWatcher itinerary comparison pipeline.

The embedding covers the canonical identity builders (mapper-kiwi.py
generate_itinerary_id, analysis-combined.py generate_edreams_itinerary_id),
the price-minimising deduplication of analyze_journey, the overall
cheaper-fraction computation, the hub-count and hub-distribution helpers,
the constructibility test and the hub-breakdown report rows.

Conventions: Python floats are modelled as rationals, Python dicts as lists
of entries in key-insertion order, Python sets as Finsets (with an explicit
enumeration-order parameter where the code iterates over a set and the
order is observable), and Python exceptions as Option/Except values.
-/

/-- One simplified flight segment, the common record shape produced by both
normalizers (fields of the entries of the simplified JSON files). -/
structure Seg where
  sourceStationId : String
  destinationStationId : String
  departureLocalTime : String
  arrivalLocalTime : String
  flightCode : String
  carrierCode : String
deriving DecidableEq

/-- One simplified itinerary record: identity, numeric price, and the two
ordered segment lists. -/
structure Itin where
  id : String
  price : ℚ
  outbound : List Seg
  inbound : List Seg
deriving DecidableEq

/-- A raw itinerary record before validation: the identity may be missing
(Python KeyError on it["id"]) and the price may be missing or unparsable
(Python ValueError on float(it["price"])), modelled as none. -/
structure RawItin where
  id : Option String
  price : Option ℚ
  outbound : List Seg
  inbound : List Seg
deriving DecidableEq

/-- A raw Kiwi segment as read by generate_itinerary_id in mapper-kiwi.py:
carrier_code = segment.carrier.code, flight_code = segment.code. -/
structure KiwiRawSeg where
  carrierCode : String
  flightCode : String
deriving DecidableEq

/-- A processed eDreams segment as consumed by generate_edreams_itinerary_id
in analysis-combined.py: carrierCode and flightCode (which still carries the
two-character carrier prefix). -/
structure EdSeg where
  carrierCode : String
  flightCode : String
deriving DecidableEq

/-- Python "-".join(l): the semantics of str.join with separator "-". -/
def dashJoin : List String → String
  | [] => ""
  | [s] => s
  | s :: t :: rest => s ++ "-" ++ dashJoin (t :: rest)

/-- Python "".join(l). -/
def concatAll : List String → String
  | [] => ""
  | s :: rest => s ++ concatAll rest

/-- mapper-kiwi.py generate_itinerary_id: per segment append
"{carrier_code}-{flight_code}", collect distinct carriers, and build
"s{segment_count}-c{carrier_count}-" + "-".join(segments). -/
def generate_itinerary_id (segs : List KiwiRawSeg) : String :=
  let segments := segs.map (fun s => s.carrierCode ++ "-" ++ s.flightCode)
  let carriers : Finset String := (segs.map (fun s => s.carrierCode)).toFinset
  "s" ++ toString segments.length ++ "-c" ++ toString carriers.card ++ "-" ++ dashJoin segments

/-- analysis-combined.py generate_edreams_itinerary_id: per segment append
"-{carrierCode}-{flightCode[2:]}" (the first two characters of flightCode
are the duplicate carrier prefix), and build
"s{section_count}-c{carrier_count}" + "".join(segment_details). -/
def generate_edreams_itinerary_id (segs : List EdSeg) (section_count : ℕ) : String :=
  let carriers : Finset String := (segs.map (fun s => s.carrierCode)).toFinset
  let segment_details := segs.map (fun s => "-" ++ s.carrierCode ++ "-" ++ s.flightCode.drop 2)
  "s" ++ toString section_count ++ "-c" ++ toString carriers.card ++ concatAll segment_details

/-- One step of the dict update in analyze_journey lines 192-198: if the key
is already present, replace its value in place exactly when the new price is
strictly lower; otherwise append the new entry at the end (Python dicts keep
key-insertion order). -/
def dedupInsert (d : List Itin) (it : Itin) : List Itin :=
  match d with
  | [] => [it]
  | x :: xs =>
    if x.id = it.id then
      (if it.price < x.price then it :: xs else x :: xs)
    else
      x :: dedupInsert xs it

/-- analyze_journey lines 192-199: unique_kiwi = list(unique_kiwi_dict.values())
after folding every record through the keep-the-strictly-cheaper dict update. -/
def uniqueKiwi (l : List Itin) : List Itin :=
  l.foldl dedupInsert []

/-- compute_hub_count from analysis-combined.py: per leg, section count minus
one when the leg is nonempty and 0 otherwise, then the maximum of the two. -/
def compute_hub_count (it : Itin) : ℕ :=
  let hubs_outbound := if it.outbound.length > 0 then it.outbound.length - 1 else 0
  let hubs_inbound := if it.inbound.length > 0 then it.inbound.length - 1 else 0
  max hubs_outbound hubs_inbound

/-- analyze_journey line 203: the set of identities of the deduplicated
Kiwi records. -/
def kiwiItineraryIds (k : List Itin) : Finset String :=
  ((uniqueKiwi k).map (fun it => it.id)).toFinset

/-- analyze_journey line 204: the set of identities of the raw eDreams
records (the eDreams list is never deduplicated in the script). -/
def edreamsItineraryIds (e : List Itin) : Finset String :=
  (e.map (fun it => it.id)).toFinset

/-- analyze_journey line 206: identities present in both sources. -/
def repeatedItineraries (k e : List Itin) : Finset String :=
  kiwiItineraryIds k ∩ edreamsItineraryIds e

/-- analyze_journey line 210: min(float(entry["price"]) for entry in
edreams_data); none models the ValueError Python raises on an empty list. -/
def cheapestEdreamsPrice (e : List Itin) : Option ℚ :=
  (e.map (fun it => it.price)).min?

/-- The price of the first record in the list bearing the given identity,
as selected by next(entry for entry in data if entry["id"] == itinerary_id). -/
def firstPriceById (l : List Itin) (i : String) : Option ℚ :=
  (l.find? (fun it => it.id == i)).map (fun it => it.price)

/-- Whether both ids resolve to a price and the first is strictly lower. -/
def optLt (a b : Option ℚ) : Bool :=
  match a, b with
  | some x, some y => x < y
  | _, _ => false

/-- analyze_journey lines 225-235: among the repeated identities, how many
compare with the Kiwi price (taken from the deduplicated list) strictly
below the eDreams price (taken from the first matching raw record). -/
def kiwiCheaperCount (k e : List Itin) : ℕ :=
  ((repeatedItineraries k e).filter
    (fun i => optLt (firstPriceById (uniqueKiwi k) i) (firstPriceById e i))).card

/-- analyze_journey lines 243-249: the overall percentage of itineraries
where Kiwi was cheaper.  none models the exceptions Python would raise:
ValueError when edreams_data is empty (line 210) and ZeroDivisionError at
the unguarded division of line 249. -/
def percentKiwiCheaperOverall (k e : List Itin) : Option ℚ :=
  match cheapestEdreamsPrice e with
  | none => none
  | some m =>
    let uk := uniqueKiwi k
    let kIds := kiwiItineraryIds k
    let eIds := edreamsItineraryIds e
    let rep := kIds ∩ eIds
    let notRep := kIds \ rep
    let countCheaperNonRepeated :=
      (uk.filter (fun it => decide (it.id ∈ notRep ∧ it.price < m))).length
    let kiwiCheaperTotal := countCheaperNonRepeated + kiwiCheaperCount k e
    let totalUniqueItineraries := uk.length + eIds.card - rep.card
    if totalUniqueItineraries = 0 then none
    else some (100 * (kiwiCheaperTotal : ℚ) / (totalUniqueItineraries : ℚ))

/-- analyze_journey lines 213-216: the count of raw (non-deduplicated) Kiwi
records priced strictly below the cheapest eDreams price, and the guarded
percentage of that count over the deduplicated Kiwi total. -/
def percentOverKiwi (k e : List Itin) : Option ℚ :=
  (cheapestEdreamsPrice e).map (fun m =>
    let cheaperCount := (k.filter (fun it => decide (it.price < m))).length
    let totalUnique := (uniqueKiwi k).length
    if totalUnique = 0 then 0 else 100 * (cheaperCount : ℚ) / (totalUnique : ℚ))

/-- One step of validated deduplication: analyze_journey reads it["id"]
(KeyError when absent) and float(it["price"]) (ValueError when unparsable)
with no surrounding try/except, so the first bad record aborts the run. -/
def dedupExceptGo (acc : List Itin) : List RawItin → Except String (List Itin)
  | [] => Except.ok acc
  | r :: rest =>
    match r.id with
    | none => Except.error "KeyError: id"
    | some i =>
      match r.price with
      | none => Except.error "ValueError: price"
      | some p => dedupExceptGo (dedupInsert acc ⟨i, p, r.outbound, r.inbound⟩) rest

/-- Validated deduplication of a raw record list, starting from the empty
dict as in analyze_journey line 192. -/
def dedupExcept (l : List RawItin) : Except String (List Itin) :=
  dedupExceptGo [] l

/-- hub_distribution in analysis-combined.py, read as the frequency function
of the dictionary it builds: how many itineraries have the given hub count. -/
def hubDistCount (l : List Itin) (n : ℕ) : ℕ :=
  (l.filter (fun it => compute_hub_count it == n)).length

/-- One step of the plain dict comprehension {it["id"]: it for it in data}
of analyze_journey line 452: an existing key keeps its position but its
value is unconditionally replaced by the later record. -/
def lastInsert (d : List Itin) (it : Itin) : List Itin :=
  match d with
  | [] => [it]
  | x :: xs => if x.id = it.id then it :: xs else x :: lastInsert xs it

/-- analyze_journey line 452: list({it["id"]: it for it in kiwi_data}.values()),
which retains the last occurrence of every identity. -/
def lastDedup (l : List Itin) : List Itin :=
  l.foldl lastInsert []

/-- analyze_journey line 457: the cheap-subset collection for the hubs
distribution, a last-occurrence dict comprehension over the price-filtered
raw list. -/
def uniqueCheapLast (k : List Itin) (m : ℚ) : List Itin :=
  lastDedup (k.filter (fun it => decide (it.price < m)))

/-- The carrier+flightNumber key f"{seg['carrierCode']}{seg['flightCode']}". -/
def segFlightKey (s : Seg) : String :=
  s.carrierCode ++ s.flightCode

/-- Python truthiness test seg.get("carrierCode") and seg.get("flightCode"):
both strings nonempty. -/
def validSeg (s : Seg) : Bool :=
  s.carrierCode ≠ "" && s.flightCode ≠ ""

/-- The set of carrier+flightNumber keys of one itinerary's segments
(outbound then inbound, invalid segments skipped), as built in
analyze_journey lines 371-374. -/
def itinFlights (it : Itin) : Finset String :=
  (((it.outbound ++ it.inbound).filter validSeg).map segFlightKey).toFinset

/-- analyze_journey lines 356-363: edreams_flights, every carrier+flight key
appearing in any segment of any eDreams record. -/
def edreamsFlights (e : List Itin) : Finset String :=
  ((e.flatMap (fun it => ((it.outbound ++ it.inbound).filter validSeg).map segFlightKey))).toFinset

/-- analyze_journey line 375: if kiwi_flights and kiwi_flights.issubset(
edreams_flights) - the itinerary counts as constructible only when its
flight set is nonempty (Python truthiness) and a subset of the eDreams
flight universe. -/
def isConstructible (eF : Finset String) (it : Itin) : Bool :=
  decide (itinFlights it ≠ ∅) && decide (itinFlights it ⊆ eF)

/-- analyze_journey lines 288-297: whether an itinerary touches a hub in any
outbound or inbound segment endpoint. -/
def usesHub (it : Itin) (hub : String) : Bool :=
  (it.outbound ++ it.inbound).any
    (fun s => s.sourceStationId == hub || s.destinationStationId == hub)

/-- analyze_journey lines 284-308, body of the loop for one hub: how many
deduplicated Kiwi itineraries touch the hub, and how many of those are in
the cheaper-than-cheapest-eDO list. -/
def hubUsage (uk : List Itin) (cheaperIds : List String) (hub : String) : ℕ × ℕ :=
  ((uk.filter (fun it => usesHub it hub)).length,
   (uk.filter (fun it => usesHub it hub && decide (it.id ∈ cheaperIds))).length)

/-- analyze_journey lines 281-308: the Hub Breakdown rows, produced in the
iteration order of the missing_locations set (the enum parameter). -/
def hubBreakdownRows (enum : List String) (uk : List Itin) (cheaperIds : List String) :
    List (String × ℕ × ℕ) :=
  enum.map (fun hub => (hub, hubUsage uk cheaperIds hub))

/-- Python ", ".join(l). -/
def commaJoin : List String → String
  | [] => ""
  | [s] => s
  | s :: t :: rest => s ++ ", " ++ commaJoin (t :: rest)

/-- analyze_journey line 278: ", ".join(sorted(missing_locations)), for a
given enumeration order of the missing_locations set. -/
def missingLocationsStr (enum : List String) : String :=
  commaJoin (List.insertionSort (fun a b => a ≤ b) enum)

lemma dash_prefix_join (a : String) (l : List String) :
    "-" ++ dashJoin (a :: l) = concatAll ((a :: l).map (fun s => "-" ++ s)) := by
  induction l generalizing a with
  | nil => simp [dashJoin, concatAll, String.append_empty]
  | cons b t ih =>
    have lhsstep : "-" ++ dashJoin (a :: b :: t) = ("-" ++ a) ++ ("-" ++ dashJoin (b :: t)) := by
      show "-" ++ (a ++ "-" ++ dashJoin (b :: t)) = ("-" ++ a) ++ ("-" ++ dashJoin (b :: t))
      simp [String.append_assoc]
    have step : concatAll (List.map (fun s => "-" ++ s) (a :: b :: t))
        = ("-" ++ a) ++ ("-" ++ dashJoin (b :: t)) := by
      show ("-" ++ a) ++ concatAll (List.map (fun s => "-" ++ s) (b :: t)) = _
      rw [← ih b]
    rw [lhsstep, step]

/-- C1 (amended): the Kiwi and eDreams identity builders produce the same
identity string for every pair of itineraries with the same nonempty ordered
(carrier, flight-number) sequence and the same total section count (for a
Kiwi itinerary the section count is its segment count). -/
theorem identity_builders_agree (ks : List KiwiRawSeg) (es : List EdSeg) (sc : ℕ)
    (hpairs : ks.map (fun s => (s.carrierCode, s.flightCode)) =
              es.map (fun s => (s.carrierCode, s.flightCode.drop 2)))
    (hsc : sc = ks.length) (hne : ks ≠ []) :
    generate_itinerary_id ks = generate_edreams_itinerary_id es sc := by
  have hcar : ks.map (fun s => s.carrierCode) = es.map (fun s => s.carrierCode) := by
    have h := congrArg (List.map Prod.fst) hpairs
    simpa [List.map_map, Function.comp] using h
  have hsegs : ks.map (fun s => s.carrierCode ++ "-" ++ s.flightCode)
      = es.map (fun s => s.carrierCode ++ "-" ++ s.flightCode.drop 2) := by
    have h := congrArg (List.map (fun p : String × String => p.1 ++ "-" ++ p.2)) hpairs
    simpa [List.map_map, Function.comp] using h
  cases ks with
  | nil => exact absurd rfl hne
  | cons s0 rest =>
    simp only [generate_itinerary_id, generate_edreams_itinerary_id]
    have hdet : es.map (fun s => "-" ++ s.carrierCode ++ "-" ++ s.flightCode.drop 2)
        = ((s0 :: rest).map (fun s => s.carrierCode ++ "-" ++ s.flightCode)).map
            (fun s => "-" ++ s) := by
      rw [hsegs, List.map_map]
      apply List.map_congr_left
      intro s _
      simp [Function.comp, String.append_assoc]
    rw [hdet,
      show ((s0 :: rest).map (fun s => s.carrierCode ++ "-" ++ s.flightCode))
        = (s0.carrierCode ++ "-" ++ s0.flightCode)
            :: rest.map (fun s => s.carrierCode ++ "-" ++ s.flightCode) from rfl,
      ← dash_prefix_join, ← hcar, hsc]
    simp [String.append_assoc]

/-- C1 counterexample: for the empty segment sequence with section count 0
the (carrier, flight-number) sequences and section counts agree, yet the
Kiwi builder yields "s0-c0-" and the eDreams builder yields "s0-c0". -/
theorem identity_builders_empty_disagree :
    ([] : List KiwiRawSeg).map (fun s => (s.carrierCode, s.flightCode)) =
      ([] : List EdSeg).map (fun s => (s.carrierCode, s.flightCode.drop 2))
    ∧ (0 : ℕ) = ([] : List KiwiRawSeg).length
    ∧ generate_itinerary_id [] ≠ generate_edreams_itinerary_id [] 0 :=
  ⟨rfl, rfl, by decide⟩

/-- C1 witness: a concrete one-segment itinerary on which the amended
theorem applies and both builders return "s1-c1-AA-100". -/
theorem identity_builders_agree_witness :
    ([⟨"AA", "100"⟩] : List KiwiRawSeg).map (fun s => (s.carrierCode, s.flightCode)) =
      ([⟨"AA", "AA100"⟩] : List EdSeg).map (fun s => (s.carrierCode, s.flightCode.drop 2))
    ∧ (1 : ℕ) = ([(⟨"AA", "100"⟩ : KiwiRawSeg)]).length
    ∧ ([(⟨"AA", "100"⟩ : KiwiRawSeg)]) ≠ []
    ∧ generate_itinerary_id [⟨"AA", "100"⟩] = generate_edreams_itinerary_id [⟨"AA", "AA100"⟩] 1 :=
  ⟨by decide, by decide, by decide,
    identity_builders_agree _ _ _ (by decide) (by decide) (by decide)⟩

/-- A segment with every field blank, used to build small examples where
only the leg lengths matter. -/
def blankSeg : Seg := ⟨"", "", "", "", "", ""⟩

/-- An itinerary with three outbound sections and one inbound section. -/
def hubCountExample : Itin := ⟨"s4-c1", 0, [blankSeg, blankSeg, blankSeg], [blankSeg]⟩

/-- C6: the hub count of every itinerary equals
max(outbound length - 1, inbound length - 1, 0) over the integers, and the
itinerary with 3 outbound sections and 1 inbound section has hub count 2. -/
theorem hub_count_is_max_minus_one (it : Itin) :
    ((compute_hub_count it : ℤ) =
      max (max ((it.outbound.length : ℤ) - 1) ((it.inbound.length : ℤ) - 1)) 0)
    ∧ compute_hub_count hubCountExample = 2 := by
  constructor
  · simp only [compute_hub_count, max_def]
    split_ifs <;> omega
  · decide

/-- The evolution of the retained record for one fixed identity while the
dict update of analyze_journey lines 192-198 scans the remaining records:
a record with the identity replaces the current best exactly when its price
is strictly lower. -/
def bestOpt (acc : Option Itin) (i : String) : List Itin → Option Itin
  | [] => acc
  | it :: rest =>
    if it.id = i then
      match acc with
      | none => bestOpt (some it) i rest
      | some x => if it.price < x.price then bestOpt (some it) i rest else bestOpt (some x) i rest
    else bestOpt acc i rest

lemma find?_dedupInsert (d : List Itin) (it : Itin) (i : String) :
    (dedupInsert d it).find? (fun x => x.id == i) =
      if it.id = i then
        match d.find? (fun x => x.id == i) with
        | none => some it
        | some x => if it.price < x.price then some it else some x
      else d.find? (fun x => x.id == i) := by
  induction d with
  | nil =>
    by_cases h : it.id = i <;>
      simp [dedupInsert, List.find?, h, show ((it.id == i) = decide (it.id = i)) from rfl]
  | cons x xs ih =>
    by_cases hx : x.id = it.id
    · by_cases hi : it.id = i
      · have hxi : x.id = i := hx.trans hi
        by_cases hp : it.price < x.price <;>
          simp [dedupInsert, hx, hi, hxi, List.find?, hp,
            show ((it.id == i) = true) from by simp [hi],
            show ((x.id == i) = true) from by simp [hxi]]
      · have hxi : ¬ x.id = i := fun h => hi (hx ▸ h)
        by_cases hp : it.price < x.price <;>
          simp [dedupInsert, hx, hi, hxi, List.find?, hp,
            show ((it.id == i) = false) from by simp [hi],
            show ((x.id == i) = false) from by simp [hxi]]
    · by_cases hxi : x.id = i
      · have hi : ¬ it.id = i := fun h => hx (hxi.trans h.symm)
        simp [dedupInsert, hx, hxi, hi, List.find?,
          show ¬ i = it.id from fun hh => hi hh.symm,
          show ((it.id == i) = false) from by simp [hi],
          show ((x.id == i) = true) from by simp [hxi]]
      · by_cases hi : it.id = i <;>
          simp [dedupInsert, hx, hxi, hi, List.find?, ih,
            show ((x.id == i) = false) from by simp [hxi]]

lemma find?_foldl_dedupInsert (l : List Itin) (d : List Itin) (i : String) :
    (l.foldl dedupInsert d).find? (fun x => x.id == i) =
      bestOpt (d.find? (fun x => x.id == i)) i l := by
  induction l generalizing d with
  | nil => rfl
  | cons it rest ih =>
    rw [List.foldl_cons, ih, find?_dedupInsert]
    by_cases hi : it.id = i
    · cases hd : d.find? (fun x => x.id == i) with
      | none => simp [bestOpt, hi, hd]
      | some x =>
        by_cases hp : it.price < x.price <;> simp [bestOpt, hi, hd, hp]
    · simp [bestOpt, hi]

lemma bestOpt_some_spec (l : List Itin) (c r : Itin) (i : String)
    (h : bestOpt (some c) i l = some r) :
    (r = c ∧ ∀ x ∈ l, x.id = i → c.price ≤ x.price) ∨
    (r.id = i ∧ r.price < c.price ∧ ∃ l₁ l₂, l = l₁ ++ r :: l₂ ∧
      (∀ x ∈ l₁, x.id = i → r.price < x.price) ∧
      (∀ x ∈ l₂, x.id = i → r.price ≤ x.price)) := by
  induction l generalizing c with
  | nil =>
    left
    refine ⟨by simpa [bestOpt] using h.symm, by simp⟩
  | cons it rest ih =>
    by_cases hi : it.id = i
    · by_cases hp : it.price < c.price
      · have h' : bestOpt (some it) i rest = some r := by
          simpa [bestOpt, hi, hp] using h
        rcases ih it h' with ⟨rfl, hb⟩ | ⟨hr, hlt, l₁, l₂, hsplit, h₁, h₂⟩
        · right
          exact ⟨hi, hp, [], rest, rfl, by simp, hb⟩
        · right
          refine ⟨hr, hlt.trans hp, it :: l₁, l₂, by simp [hsplit], ?_, h₂⟩
          intro x hx hxi
          rcases List.mem_cons.mp hx with rfl | hx'
          · exact hlt
          · exact h₁ x hx' hxi
      · have h' : bestOpt (some c) i rest = some r := by
          simpa [bestOpt, hi, hp] using h
        have hcle : c.price ≤ it.price := le_of_not_lt hp
        rcases ih c h' with ⟨rfl, hb⟩ | ⟨hr, hlt, l₁, l₂, hsplit, h₁, h₂⟩
        · left
          refine ⟨rfl, ?_⟩
          intro x hx hxi
          rcases List.mem_cons.mp hx with rfl | hx'
          · exact hcle
          · exact hb x hx' hxi
        · right
          refine ⟨hr, hlt, it :: l₁, l₂, by simp [hsplit], ?_, h₂⟩
          intro x hx hxi
          rcases List.mem_cons.mp hx with rfl | hx'
          · exact hlt.trans_le hcle
          · exact h₁ x hx' hxi
    · have h' : bestOpt (some c) i rest = some r := by
        simpa [bestOpt, hi] using h
      rcases ih c h' with ⟨rfl, hb⟩ | ⟨hr, hlt, l₁, l₂, hsplit, h₁, h₂⟩
      · left
        refine ⟨rfl, ?_⟩
        intro x hx hxi
        rcases List.mem_cons.mp hx with rfl | hx'
        · exact absurd hxi hi
        · exact hb x hx' hxi
      · right
        refine ⟨hr, hlt, it :: l₁, l₂, by simp [hsplit], ?_, h₂⟩
        intro x hx hxi
        rcases List.mem_cons.mp hx with rfl | hx'
        · exact absurd hxi hi
        · exact h₁ x hx' hxi

lemma bestOpt_none_spec (l : List Itin) (i : String) (r : Itin)
    (h : bestOpt none i l = some r) :
    r.id = i ∧ ∃ l₁ l₂, l = l₁ ++ r :: l₂ ∧
      (∀ x ∈ l₁, x.id = i → r.price < x.price) ∧
      (∀ x ∈ l₂, x.id = i → r.price ≤ x.price) := by
  induction l with
  | nil => simp [bestOpt] at h
  | cons it rest ih =>
    by_cases hi : it.id = i
    · have h' : bestOpt (some it) i rest = some r := by
        simpa [bestOpt, hi] using h
      rcases bestOpt_some_spec rest it r i h' with ⟨rfl, hb⟩ | ⟨hr, hlt, l₁, l₂, hsplit, h₁, h₂⟩
      · exact ⟨hi, [], rest, rfl, by simp, hb⟩
      · refine ⟨hr, it :: l₁, l₂, by simp [hsplit], ?_, h₂⟩
        intro x hx hxi
        rcases List.mem_cons.mp hx with rfl | hx'
        · exact hlt
        · exact h₁ x hx' hxi
    · have h' : bestOpt none i rest = some r := by
        simpa [bestOpt, hi] using h
      rcases ih h' with ⟨hr, l₁, l₂, hsplit, h₁, h₂⟩
      refine ⟨hr, it :: l₁, l₂, by simp [hsplit], ?_, h₂⟩
      intro x hx hxi
      rcases List.mem_cons.mp hx with rfl | hx'
      · exact absurd hxi hi
      · exact h₁ x hx' hxi

/-- C2: whenever the deduplicated collection retains record r for identity i,
then r carries identity i and the input list splits as l₁ ++ r :: l₂ where
every earlier record with identity i is strictly more expensive (so on a
price tie the first-seen record wins) and every later record with identity i
is at least as expensive (so r has the minimum numeric price). -/
theorem dedup_keeps_cheapest_first_seen (l : List Itin) (i : String) (r : Itin)
    (h : (uniqueKiwi l).find? (fun x => x.id == i) = some r) :
    r.id = i ∧ ∃ l₁ l₂, l = l₁ ++ r :: l₂ ∧
      (∀ x ∈ l₁, x.id = i → r.price < x.price) ∧
      (∀ x ∈ l₂, x.id = i → r.price ≤ x.price) := by
  have h' : bestOpt none i l = some r := by
    rw [uniqueKiwi, find?_foldl_dedupInsert] at h
    simpa using h
  exact bestOpt_none_spec l i r h'

/-- A list with duplicate identities: the cheapest "X" record appears after
a costlier one and is followed by an equal-priced tie. -/
def c2Example : List Itin :=
  [⟨"X", 5, [], []⟩, ⟨"Y", 1, [], []⟩, ⟨"X", 3, [], []⟩, ⟨"X", 3, [], []⟩]

/-- C2 witness: on the concrete list the mapping retains the first-seen
minimum-priced record for identity X, and the theorem's decomposition holds. -/
theorem dedup_keeps_cheapest_first_seen_witness :
    ((uniqueKiwi c2Example).find? (fun x => x.id == "X") = some ⟨"X", 3, [], []⟩)
    ∧ ((⟨"X", 3, [], []⟩ : Itin).id = "X" ∧ ∃ l₁ l₂, c2Example = l₁ ++ (⟨"X", 3, [], []⟩ : Itin) :: l₂ ∧
        (∀ x ∈ l₁, x.id = "X" → (⟨"X", 3, [], []⟩ : Itin).price < x.price) ∧
        (∀ x ∈ l₂, x.id = "X" → (⟨"X", 3, [], []⟩ : Itin).price ≤ x.price)) :=
  ⟨by decide, dedup_keeps_cheapest_first_seen c2Example "X" ⟨"X", 3, [], []⟩ (by decide)⟩

lemma map_id_dedupInsert (d : List Itin) (it : Itin) :
    (dedupInsert d it).map (fun x => x.id) =
      if it.id ∈ d.map (fun x => x.id) then d.map (fun x => x.id)
      else d.map (fun x => x.id) ++ [it.id] := by
  induction d with
  | nil => simp [dedupInsert]
  | cons x xs ih =>
    by_cases hx : x.id = it.id
    · by_cases hp : it.price < x.price <;> simp [dedupInsert, hx, hp]
    · have hne : ¬ it.id = x.id := fun h => hx h.symm
      by_cases hm : it.id ∈ xs.map (fun x => x.id) <;>
        simp [dedupInsert, hx, ih, hm, hne]

lemma nodup_map_id_dedupInsert (d : List Itin) (it : Itin)
    (h : (d.map (fun x => x.id)).Nodup) :
    ((dedupInsert d it).map (fun x => x.id)).Nodup := by
  rw [map_id_dedupInsert]
  by_cases hm : it.id ∈ d.map (fun x => x.id) <;>
    simp [hm, h, List.nodup_append]

lemma nodup_map_id_foldl (l d : List Itin) (h : (d.map (fun x => x.id)).Nodup) :
    ((l.foldl dedupInsert d).map (fun x => x.id)).Nodup := by
  induction l generalizing d with
  | nil => simpa using h
  | cons it rest ih => exact ih _ (nodup_map_id_dedupInsert d it h)

lemma nodup_map_id_uniqueKiwi (l : List Itin) :
    ((uniqueKiwi l).map (fun x => x.id)).Nodup :=
  nodup_map_id_foldl l [] (by simp)

lemma length_uniqueKiwi_eq_card (l : List Itin) :
    (uniqueKiwi l).length = (kiwiItineraryIds l).card := by
  rw [kiwiItineraryIds, List.toFinset_card_of_nodup (nodup_map_id_uniqueKiwi l), List.length_map]

/-- The count of the claim's formula written from the spec: non-repeated
collection-A records (identity absent from B) priced below B's global
minimum. -/
def specNonRepeatedBelowMin (k e : List Itin) (m : ℚ) : ℕ :=
  ((uniqueKiwi k).filter (fun it => decide (it.id ∉ edreamsItineraryIds e ∧ it.price < m))).length

/-- The denominator of the claim's formula written from the spec: the number
of unique A identities plus unique B identities minus repeated identities. -/
def specDenomUnique (k e : List Itin) : ℕ :=
  (kiwiItineraryIds k).card + (edreamsItineraryIds e).card - (repeatedItineraries k e).card

/-- C3: whenever the cheapest eDreams price exists, the reported overall
percentage equals 100 times (non-repeated unique-Kiwi records below B's
global minimum + repeated identities where Kiwi is cheaper) divided by
(unique Kiwi identities + unique eDreams identities - repeated identities). -/
theorem overall_cheaper_fraction (k e : List Itin) (m : ℚ)
    (hm : cheapestEdreamsPrice e = some m) :
    percentKiwiCheaperOverall k e =
      some (100 * ((specNonRepeatedBelowMin k e m + kiwiCheaperCount k e : ℕ) : ℚ) /
        ((specDenomUnique k e : ℕ) : ℚ)) := by
  have hne : e ≠ [] := by
    intro he
    rw [he] at hm
    simp [cheapestEdreamsPrice] at hm
  have hecard : 0 < (edreamsItineraryIds e).card := by
    cases e with
    | nil => exact absurd rfl hne
    | cons x xs =>
      apply Finset.card_pos.mpr
      exact ⟨x.id, by simp [edreamsItineraryIds]⟩
  have hrep : (repeatedItineraries k e).card ≤ (kiwiItineraryIds k).card :=
    Finset.card_le_card (show repeatedItineraries k e ⊆ kiwiItineraryIds k from
      Finset.inter_subset_left)
  have hlen := length_uniqueKiwi_eq_card k
  have hfil : (uniqueKiwi k).filter
      (fun it => decide (it.id ∈ kiwiItineraryIds k \ (kiwiItineraryIds k ∩ edreamsItineraryIds e)
        ∧ it.price < m))
      = (uniqueKiwi k).filter (fun it => decide (it.id ∉ edreamsItineraryIds e ∧ it.price < m)) := by
    apply List.filter_congr
    intro it hit
    have hmem : it.id ∈ kiwiItineraryIds k := by
      rw [kiwiItineraryIds, List.mem_toFinset]
      exact List.mem_map_of_mem _ hit
    apply decide_eq_decide.mpr
    constructor
    · rintro ⟨hsd, hp⟩
      refine ⟨?_, hp⟩
      intro hE
      exact (Finset.mem_sdiff.mp hsd).2 (Finset.mem_inter.mpr ⟨hmem, hE⟩)
    · rintro ⟨hE, hp⟩
      refine ⟨Finset.mem_sdiff.mpr ⟨hmem, ?_⟩, hp⟩
      intro hI
      exact hE (Finset.mem_inter.mp hI).2
  have h0 : ¬((uniqueKiwi k).length + (edreamsItineraryIds e).card
      - (kiwiItineraryIds k ∩ edreamsItineraryIds e).card = 0) := by
    have : (kiwiItineraryIds k ∩ edreamsItineraryIds e).card ≤ (kiwiItineraryIds k).card := hrep
    omega
  simp only [percentKiwiCheaperOverall, hm]
  rw [if_neg h0, hfil]
  have hden : (uniqueKiwi k).length + (edreamsItineraryIds e).card
      - (kiwiItineraryIds k ∩ edreamsItineraryIds e).card = specDenomUnique k e := by
    rw [specDenomUnique, repeatedItineraries, hlen]
  rw [hden]
  rfl

/-- A one-record Kiwi input for the C3 witness. -/
def c3K : List Itin := [⟨"X", 50, [], []⟩]

/-- A one-record eDreams input for the C3 witness. -/
def c3E : List Itin := [⟨"E", 100, [], []⟩]

/-- C3 witness: the formula equality instantiated on concrete one-record
collections whose cheapest eDreams price is 100. -/
theorem overall_cheaper_fraction_witness :
    cheapestEdreamsPrice c3E = some 100
    ∧ percentKiwiCheaperOverall c3K c3E =
        some (100 * ((specNonRepeatedBelowMin c3K c3E 100 + kiwiCheaperCount c3K c3E : ℕ) : ℚ) /
          ((specDenomUnique c3K c3E : ℕ) : ℚ)) :=
  ⟨rfl, overall_cheaper_fraction c3K c3E 100 rfl⟩

/-- An eDreams collection whose flight universe is exactly AA100. -/
def c4B : List Itin := [⟨"B1", 50, [⟨"MAD", "JFK", "", "", "100", "AA"⟩], []⟩]

/-- An A-only itinerary with no segments, hence an empty flight set. -/
def c4Empty : Itin := ⟨"s0-c0-", 10, [], []⟩

/-- C4 counterexample: an A-only itinerary with an empty flight set has
every one of its (zero) flight keys in B and a vacuously-true subset test,
yet the code reports it not constructible because an empty Python set is
falsy. -/
theorem constructible_vacuous_disagree :
    c4Empty.id ∉ edreamsItineraryIds c4B
    ∧ itinFlights c4Empty ⊆ edreamsFlights c4B
    ∧ isConstructible (edreamsFlights c4B) c4Empty = false := by
  decide

/-- C4 (amended): an itinerary is reported constructible iff its flight set
is nonempty and contained in B's flight universe; and any itinerary whose
flight set adds to it a flight absent from B is reported non-constructible. -/
theorem constructible_iff_nonempty_subset (eF : Finset String) (it it' : Itin) (f : String)
    (h1 : itinFlights it' = insert f (itinFlights it)) (h2 : f ∉ eF) :
    (isConstructible eF it = true ↔ (itinFlights it).Nonempty ∧ itinFlights it ⊆ eF)
    ∧ isConstructible eF it' = false := by
  constructor
  · simp [isConstructible, Finset.nonempty_iff_ne_empty]
  · have hf : f ∈ itinFlights it' := by
      rw [h1]
      exact Finset.mem_insert_self f _
    have hns : ¬ itinFlights it' ⊆ eF := fun hs => h2 (hs hf)
    simp [isConstructible, hns]

/-- A Kiwi itinerary flying only AA100, constructible from c4B. -/
def c4BaseItin : Itin := ⟨"k1", 10, [⟨"", "", "", "", "100", "AA"⟩], []⟩

/-- The same itinerary extended with flight ZZ999, absent from c4B. -/
def c4AddedItin : Itin :=
  ⟨"k2", 10, [⟨"", "", "", "", "100", "AA"⟩, ⟨"", "", "", "", "999", "ZZ"⟩], []⟩

/-- C4 witness: the amended characterisation instantiated on concrete
itineraries over the flight universe of c4B. -/
theorem constructible_iff_nonempty_subset_witness :
    (itinFlights c4AddedItin = insert "ZZ999" (itinFlights c4BaseItin))
    ∧ ("ZZ999" ∉ edreamsFlights c4B)
    ∧ ((isConstructible (edreamsFlights c4B) c4BaseItin = true ↔
        (itinFlights c4BaseItin).Nonempty ∧ itinFlights c4BaseItin ⊆ edreamsFlights c4B)
      ∧ isConstructible (edreamsFlights c4B) c4AddedItin = false) :=
  ⟨by decide, by decide,
    constructible_iff_nonempty_subset (edreamsFlights c4B) c4BaseItin c4AddedItin "ZZ999"
      (by decide) (by decide)⟩

/-- The spec's own scenario record A = [s1-c1-AA-100 at price 100]. -/
def c5K : List Itin := [⟨"s1-c1-AA-100", 100, [], []⟩]

/-- C5: on a nonempty Kiwi collection and an empty eDreams collection the
embedded percentage computations return none - the Python code raises
ValueError at min() over the empty price list (and the division of line 249
is unguarded) - instead of reporting the 0 the claim requires. -/
theorem empty_collection_percentages_raise :
    percentKiwiCheaperOverall c5K [] = none
    ∧ percentOverKiwi c5K [] = none
    ∧ cheapestEdreamsPrice [] = none :=
  ⟨rfl, rfl, rfl⟩

lemma dedupExceptGo_ok_iff (l : List RawItin) : ∀ acc : List Itin,
    (∃ res, dedupExceptGo acc l = Except.ok res) ↔
      ∀ r ∈ l, r.id ≠ none ∧ r.price ≠ none := by
  induction l with
  | nil =>
    intro acc
    simp [dedupExceptGo]
  | cons r rest ih =>
    intro acc
    cases hid : r.id with
    | none => simp [dedupExceptGo, hid]
    | some i =>
      cases hp : r.price with
      | none => simp [dedupExceptGo, hid, hp]
      | some p => simp [dedupExceptGo, hid, hp, ih]

/-- C7 (amended): validated deduplication succeeds exactly when every record
has an identity and a parsable price; the first record lacking either aborts
the entire run with an uncaught error, with no per-record exclusion. -/
theorem dedup_aborts_on_first_bad_record (l : List RawItin) :
    (∃ res, dedupExcept l = Except.ok res) ↔ ∀ r ∈ l, r.id ≠ none ∧ r.price ≠ none :=
  dedupExceptGo_ok_iff l []

/-- A fully valid raw record. -/
def c7Good : RawItin := ⟨some "X", some 5, [], []⟩

/-- A raw record lacking an identity. -/
def c7Bad : RawItin := ⟨none, some 3, [], []⟩

/-- C7 counterexample: one bad record aborts the whole run with KeyError
even though another record of the source is fully valid, contradicting
record-level exclusion with the run continuing. -/
theorem dedup_abort_counterexample :
    dedupExcept [c7Good, c7Bad] = Except.error "KeyError: id"
    ∧ c7Good.id ≠ none ∧ c7Good.price ≠ none :=
  ⟨rfl, by simp [c7Good], by simp [c7Good]⟩

/-- A deduplicated Kiwi collection with one itinerary touching hubs AAA and
BBB. -/
def c8UK : List Itin := [⟨"k1", 10, [⟨"AAA", "BBB", "", "", "100", "AA"⟩], []⟩]

/-- C8 counterexample: two enumeration orders of the same missing-hub set
produce different Hub Breakdown row lists, so the report structure is not
bit-identical across runs that iterate the set in different orders. -/
theorem hub_breakdown_order_dependent :
    (["AAA", "BBB"] : List String).Perm ["BBB", "AAA"]
    ∧ hubBreakdownRows ["AAA", "BBB"] c8UK ["k1"]
        ≠ hubBreakdownRows ["BBB", "AAA"] c8UK ["k1"] :=
  ⟨List.Perm.swap "BBB" "AAA" [], by decide⟩

/-- C8 (amended): across two runs whose set-iteration orders are
permutations of each other, the Hub Breakdown rows agree up to permutation
(the row order itself follows the iteration order) and the sorted
missing-hubs string is identical. -/
theorem hub_breakdown_rows_perm (uk : List Itin) (ch : List String) (o₁ o₂ : List String)
    (h : o₁.Perm o₂) :
    (hubBreakdownRows o₁ uk ch).Perm (hubBreakdownRows o₂ uk ch)
    ∧ missingLocationsStr o₁ = missingLocationsStr o₂ := by
  constructor
  · exact h.map _
  · rw [missingLocationsStr, missingLocationsStr]
    congr 1
    refine List.eq_of_perm_of_sorted ?_ (List.sorted_insertionSort _ o₁)
      (List.sorted_insertionSort _ o₂)
    exact ((List.perm_insertionSort _ o₁).trans h).trans (List.perm_insertionSort _ o₂).symm

/-- C8 witness: the amended statement instantiated on two concrete
enumeration orders of the hub set of c8UK. -/
theorem hub_breakdown_rows_perm_witness :
    (["AAA", "BBB"] : List String).Perm ["BBB", "AAA"]
    ∧ ((hubBreakdownRows ["AAA", "BBB"] c8UK ["k1"]).Perm
        (hubBreakdownRows ["BBB", "AAA"] c8UK ["k1"])
      ∧ missingLocationsStr ["AAA", "BBB"] = missingLocationsStr ["BBB", "AAA"]) :=
  ⟨List.Perm.swap "BBB" "AAA" [],
    hub_breakdown_rows_perm c8UK ["k1"] ["AAA", "BBB"] ["BBB", "AAA"]
      (List.Perm.swap "BBB" "AAA" [])⟩

/-- A raw Kiwi list with two records of the same identity, both below 100. -/
def c9K : List Itin := [⟨"X", 10, [], []⟩, ⟨"X", 20, [], []⟩]

/-- A one-record eDreams list whose cheapest price is 100. -/
def c9E : List Itin := [⟨"E1", 100, [], []⟩]

/-- C9: the below-cheapest-eDO count ranges over the raw Kiwi list while its
percentage divides by the deduplicated unique count, so duplicate-identity
records all priced below eDreams' minimum push the reported percentage to
200, exceeding 100. -/
theorem percent_over_kiwi_exceeds_100 :
    cheapestEdreamsPrice c9E = some 100
    ∧ (∀ it ∈ c9K, it.price < 100)
    ∧ c9K.length = 2
    ∧ (uniqueKiwi c9K).length = 1
    ∧ percentOverKiwi c9K c9E = some 200
    ∧ (100 : ℚ) < 200 := by
  refine ⟨rfl, by decide, rfl, rfl, ?_, by norm_num⟩
  have h1 : percentOverKiwi c9K c9E = some (100 * ((2 : ℕ) : ℚ) / ((1 : ℕ) : ℚ)) := rfl
  rw [h1]
  norm_num

/-- The cheaper record of the duplicated identity, with a single outbound
section. -/
def c10It1 : Itin := ⟨"X", 10, [blankSeg], []⟩

/-- The costlier and later record of the same identity, with two outbound
sections. -/
def c10It2 : Itin := ⟨"X", 20, [blankSeg, blankSeg], []⟩

/-- A raw Kiwi list carrying both records of identity X. -/
def c10K : List Itin := [c10It1, c10It2]

/-- A one-record eDreams list whose cheapest price is 100. -/
def c10E : List Itin := [⟨"E1", 100, [], []⟩]

/-- C10: the hub-distribution stage re-deduplicates keeping the last
occurrence per identity, so the cheap-subset hub distribution (built from
the two-section record) differs from the distribution over the min-price
deduplicated collection (which retains the one-section record). -/
theorem cheap_hub_distribution_uses_last_occurrence :
    cheapestEdreamsPrice c10E = some 100
    ∧ uniqueKiwi c10K = [c10It1]
    ∧ lastDedup c10K = [c10It2]
    ∧ uniqueCheapLast c10K 100 = [c10It2]
    ∧ hubDistCount (uniqueCheapLast c10K 100) 1 = 1
    ∧ hubDistCount ((uniqueKiwi c10K).filter (fun it => decide (it.price < 100))) 1 = 0
    ∧ hubDistCount ((uniqueKiwi c10K).filter (fun it => decide (it.price < 100))) 0 = 1 :=
  ⟨rfl, by decide, by decide, by decide, by decide, by decide, by decide⟩
